import Mathlib

/-!
Verification development for the stream-finder torrent application
(`app.py`, `torrent_search.py`, `config.py`).

Strings are modelled as `List Char`, bytes as `List Nat` (each entry < 256),
Python `int` counters as `Nat`.  Network I/O is modelled by passing the
response of each HTTP call as an explicit argument, together with flags
recording which calls were issued.  All character-level operations
(`str.lower`, `str.strip`, `\d`, base32/hex codecs) are modelled at ASCII
level, which covers every string the code manipulates (hex digits, base32
digits, HTML attribute text).
-/

/-- Characters accepted by the regex class `[a-fA-F0-9]`. -/
def isHexChar (c : Char) : Bool :=
  ('0' ≤ c && c ≤ '9') || ('a' ≤ c && c ≤ 'f') || ('A' ≤ c && c ≤ 'F')

/-- Python `str.lower` on the ASCII strings handled by the code. -/
def pyLower (s : List Char) : List Char :=
  s.map Char.toLower

/-- ASCII whitespace stripped by Python `str.strip()`. -/
def isSpaceChar (c : Char) : Bool :=
  c == ' ' || c == '\t' || c == '\n' || c == '\r' || c == '\x0b' || c == '\x0c'

/-- Python `str.strip()`: remove leading and trailing whitespace. -/
def pyStrip (s : List Char) : List Char :=
  ((s.dropWhile isSpaceChar).reverse.dropWhile isSpaceChar).reverse

/-- Python `int(..)` applied to a nonempty ASCII digit string. -/
def digitsToNat (s : List Char) : Nat :=
  s.foldl (fun a c => a * 10 + (c.toNat - 48)) 0

/-- Decimal rendering of a number, as Python f-string interpolation of an int. -/
def natToDec (n : Nat) : List Char :=
  Nat.toDigits 10 n

/-- Big-endian byte string of `n`, `count` bytes wide (`int.to_bytes`). -/
def natToBytes (n : Nat) : Nat → List Nat
  | 0 => []
  | k + 1 => natToBytes (n / 256) k ++ [n % 256]

/-- Value of a hex digit as accepted by `binascii.unhexlify`. -/
def hexVal (c : Char) : Option Nat :=
  if '0' ≤ c && c ≤ '9' then some (c.toNat - 48)
  else if 'a' ≤ c && c ≤ 'f' then some (c.toNat - 87)
  else if 'A' ≤ c && c ≤ 'F' then some (c.toNat - 55)
  else none

/-- Value of a base32 digit (RFC 4648 alphabet `A..Z2..7`), as used by
`base64.b32decode`. -/
def b32val (c : Char) : Option Nat :=
  if 'A' ≤ c && c ≤ 'Z' then some (c.toNat - 65)
  else if '2' ≤ c && c ≤ '7' then some (c.toNat - 24)
  else none

/-- Lowercase hex rendering of a byte string (`bytes.hex()` /
`binascii.hexlify`). -/
def bytesToHex (bs : List Nat) : List Char :=
  (bs.map (fun b =>
    [ (Nat.digitChar (b / 16 % 16)), (Nat.digitChar (b % 16)) ])).flatten

/-- Model of `binascii.unhexlify`: fails on odd length or any non-hex digit. -/
def unhexlify : List Char → Option (List Nat)
  | [] => some []
  | [_] => none
  | a :: b :: rest =>
    match hexVal a, hexVal b, unhexlify rest with
    | some x, some y, some bs => some ((x * 16 + y) :: bs)
    | _, _, _ => none

/-- Model of Python `base64.b32decode`.  Mirrors CPython: the input length
must be a multiple of 8; trailing `=` padding is stripped and its count must
be one of 0, 1, 3, 4, 6 (8 pad characters is an "Incorrect padding" error);
every remaining character must be a base32 digit; the accumulated bit string
is truncated to whole bytes. -/
def b32decode (s : List Char) : Option (List Nat) :=
  if s.length % 8 ≠ 0 then none
  else
    let stripped := (s.reverse.dropWhile (· == '=')).reverse
    let pad := s.length - stripped.length
    if pad = 0 ∨ pad = 1 ∨ pad = 3 ∨ pad = 4 ∨ pad = 6 then
      match stripped.mapM b32val with
      | none => none
      | some vals =>
        let acc := vals.foldl (fun a v => a * 32 + v) 0
        let bits := 5 * vals.length
        some (natToBytes (acc / 2 ^ (bits % 8)) (bits / 8))
    else none

/-- Exact-length run of `[a-fA-F0-9]{40}`, falling back to `{32}`, at the
start of `s`: the ordered alternation inside `MAGNET_RE` and the provider
hash regex. -/
def matchHashAt (s : List Char) : Option (List Char) :=
  let c40 := s.take 40
  if c40.length = 40 ∧ c40.all isHexChar then some c40
  else
    let c32 := s.take 32
    if c32.length = 32 ∧ c32.all isHexChar then some c32 else none

/-- Leftmost-match scan of `re.search`: try `matchAt` at every start
position, left to right. -/
def searchWith (matchAt : List Char → Option α) : List Char → Option α
  | [] => matchAt []
  | c :: rest =>
    match matchAt (c :: rest) with
    | some r => some r
    | none => searchWith matchAt rest

/-- Attempt of `MAGNET_RE` (`magnet:\?xt=urn:btih:([a-fA-F0-9]{40}|[a-fA-F0-9]{32})`)
anchored at the start of `s`. -/
def magnetReAt (s : List Char) : Option (List Char) :=
  if "magnet:?xt=urn:btih:".toList.isPrefixOf s then
    matchHashAt (s.drop 20)
  else none

/-- `MAGNET_RE.search(...)` returning the captured hash group. -/
def magnetReSearch (s : List Char) : Option (List Char) :=
  searchWith magnetReAt s

/-- Substring occurrence as a proposition: `needle` occurs contiguously
inside `hay` (the meaning of Python's `needle in hay`). -/
def SubstrOf (needle hay : List Char) : Prop :=
  ∃ pre post, hay = pre ++ needle ++ post

/-- Executable substring test, Python's `needle in hay`. -/
def containsSub : List Char → List Char → Bool
  | [], needle => needle.isEmpty
  | c :: t, needle => needle.isPrefixOf (c :: t) || containsSub t needle

namespace TorrentManager

/-- `TorrentManager._convert_hash_format`: try `base64.b32decode` of the
string padded with `'=' * (8 - len % 8)` characters; on failure fall back to
`binascii.hexlify(binascii.unhexlify(s))`; on failure return the input
unchanged. -/
def convert_hash_format (h : List Char) : List Char :=
  match b32decode (h ++ List.replicate (8 - h.length % 8) '=') with
  | some bs => bytesToHex bs
  | none =>
    match unhexlify h with
    | some bs => bytesToHex bs
    | none => h

/-- `TorrentManager._extract_hash`: search `MAGNET_RE`, and convert the
captured group through `_convert_hash_format` when it has 32 characters. -/
def extract_hash (magnet : List Char) : Option (List Char) :=
  match magnetReSearch magnet with
  | none => none
  | some h => if h.length = 32 then some (convert_hash_format h) else some h

end TorrentManager

namespace TorrentProvider

/-- `TorrentProvider._extract_hash`: search
`urn:btih:([a-fA-F0-9]{40}|[a-fA-F0-9]{32})` and return the group, or the
empty string when there is no match. -/
def extract_hash (magnet : List Char) : List Char :=
  (searchWith
    (fun s =>
      if "urn:btih:".toList.isPrefixOf s then matchHashAt (s.drop 9) else none)
    magnet).getD []

/-- The fixed pattern table of `TorrentProvider._extract_quality`, in the
insertion order of the Python dict. -/
def quality_map : List (List Char × List Char) :=
  [ ("2160p".toList, "4K".toList), ("4k".toList, "4K".toList),
    ("1080p".toList, "1080p".toList), ("720p".toList, "720p".toList),
    ("480p".toList, "SD".toList), ("dvdrip".toList, "SD".toList),
    ("webrip".toList, "WEB".toList), ("webdl".toList, "WEB-DL".toList),
    ("bluray".toList, "BluRay".toList), ("hdtv".toList, "HDTV".toList) ]

/-- Iteration of the pattern table: first pattern contained in the lowered
name wins. -/
def firstQuality : List (List Char × List Char) → List Char → List Char
  | [], _ => "Unknown".toList
  | (p, q) :: rest, nameLower =>
    if containsSub nameLower p then q else firstQuality rest nameLower

/-- `TorrentProvider._extract_quality`. -/
def extract_quality (name : List Char) : List Char :=
  firstQuality quality_map (pyLower name)

end TorrentProvider

/-- `validate_magnet_link` (torrent_search.py): `re.match` against
`^magnet:\?xt=urn:btih:[a-fA-F0-9]{40}.*`, i.e. the literal prefix followed
by 40 hex characters followed by anything. -/
def validate_magnet_link (s : List Char) : Bool :=
  "magnet:?xt=urn:btih:".toList.isPrefixOf s &&
    (((s.drop 20).take 40).length == 40 && ((s.drop 20).take 40).all isHexChar)

/-- Media types of `MediaType` (torrent_search.py). -/
inductive MediaType where
  | movie
  | tv
deriving DecidableEq

/-- The result record `TorrentResult` (torrent_search.py), with the same
fields and defaults. -/
structure TorrentResult where
  name : List Char
  magnet : List Char
  size : List Char
  seeders : Nat
  leechers : Nat
  source : List Char
  hash : List Char := []
  quality : List Char := "Unknown".toList
  category : List Char := []
  uploadDate : List Char := []
deriving DecidableEq

/-- The `health_score` property of `TorrentResult`, recomputed from the
current `seeders` field at every read. -/
def TorrentResult.health_score (r : TorrentResult) : Nat :=
  if r.seeders = 0 then 0
  else if r.seeders ≥ 50 then 100
  else min 100 (r.seeders * 2)

/-- One element of a transliterated regular expression: a literal, a greedy
character-class star, or the capturing variants (`capLit`/`capStar` for
pieces inside the capture group, `capPlus` for a capturing `+`). -/
inductive Tok where
  | lit : List Char → Tok
  | star : (Char → Bool) → Tok
  | capLit : List Char → Tok
  | capStar : (Char → Bool) → Tok
  | capPlus : (Char → Bool) → Tok

/-- Backtracking over the split point of a greedy repetition: try `k`
characters first, then shorter prefixes down to `lo`. -/
def bestSplitLo (lo : Nat) (f : Nat → Option α) : Nat → Option (Nat × α)
  | 0 => if 0 < lo then none else (f 0).map (fun a => (0, a))
  | k + 1 =>
    if k + 1 < lo then none
    else
      match f (k + 1) with
      | some a => some (k + 1, a)
      | none => bestSplitLo lo f k

/-- Anchored match of a token sequence against the start of `s`, with the
leftmost-longest backtracking semantics of Python `re`.  Returns the text of
the capture group and the number of consumed characters. -/
def matchToks : List Tok → List Char → Option (List Char × Nat)
  | [], _ => some ([], 0)
  | Tok.lit l :: ts, s =>
    if l.isPrefixOf s then
      (matchToks ts (s.drop l.length)).map (fun r => (r.1, l.length + r.2))
    else none
  | Tok.capLit l :: ts, s =>
    if l.isPrefixOf s then
      (matchToks ts (s.drop l.length)).map (fun r => (l ++ r.1, l.length + r.2))
    else none
  | Tok.star p :: ts, s =>
    (bestSplitLo 0 (fun k => matchToks ts (s.drop k)) ((s.takeWhile p).length)).map
      (fun r => (r.2.1, r.1 + r.2.2))
  | Tok.capStar p :: ts, s =>
    (bestSplitLo 0 (fun k => matchToks ts (s.drop k)) ((s.takeWhile p).length)).map
      (fun r => (s.take r.1 ++ r.2.1, r.1 + r.2.2))
  | Tok.capPlus p :: ts, s =>
    (bestSplitLo 1 (fun k => matchToks ts (s.drop k)) ((s.takeWhile p).length)).map
      (fun r => (s.take r.1 ++ r.2.1, r.1 + r.2.2))

/-- `re.search`: anchored attempts at every start position, left to right;
returns the capture group of the first match. -/
def reSearch (toks : List Tok) : List Char → Option (List Char)
  | [] => (matchToks toks []).map (fun r => r.1)
  | c :: rest =>
    match matchToks toks (c :: rest) with
    | some r => some r.1
    | none => reSearch toks rest

/-- Worker for `re.findall`, fueled by the input length (each step consumes
at least one character). -/
def reFindAllGo (toks : List Tok) : Nat → List Char → List (List Char)
  | _, [] =>
    match matchToks toks [] with
    | some r => [r.1]
    | none => []
  | 0, _ => []
  | fuel + 1, c :: rest =>
    match matchToks toks (c :: rest) with
    | some r => r.1 :: reFindAllGo toks fuel ((c :: rest).drop (max r.2 1))
    | none => reFindAllGo toks fuel rest

/-- `re.findall`: all non-overlapping matches, left to right. -/
def reFindAll (toks : List Tok) (s : List Char) : List (List Char) :=
  reFindAllGo toks s.length s

/-- Character class `[^>]`. -/
def nonGt (c : Char) : Bool := c != '>'

/-- Character class `[^"]`. -/
def nonQuote (c : Char) : Bool := c != '"'

/-- Character class `\d` (ASCII digits). -/
def isDigitChar (c : Char) : Bool := '0' ≤ c && c ≤ '9'

/-- Character class `[^,]`. -/
def nonComma (c : Char) : Bool := c != ','

/-- Transliteration of `<a[^>]*class="detLink"[^>]*title="[^"]*Details for ([^"]*)"[^>]*>`. -/
def detLinkPat : List Tok :=
  [ Tok.lit "<a".toList, Tok.star nonGt, Tok.lit "class=\"detLink\"".toList,
    Tok.star nonGt, Tok.lit "title=\"".toList, Tok.star nonQuote,
    Tok.lit "Details for ".toList, Tok.capStar nonQuote, Tok.lit "\"".toList,
    Tok.star nonGt, Tok.lit ">".toList ]

/-- Transliteration of `<a[^>]*href="(magnet:\?xt=urn:btih:[^"]*)"[^>]*>`. -/
def magnetHrefPat : List Tok :=
  [ Tok.lit "<a".toList, Tok.star nonGt, Tok.lit "href=\"".toList,
    Tok.capLit "magnet:?xt=urn:btih:".toList, Tok.capStar nonQuote,
    Tok.lit "\"".toList, Tok.star nonGt, Tok.lit ">".toList ]

/-- Transliteration of `<td[^>]*align="right">(\d+)</td>`. -/
def tdNumPat : List Tok :=
  [ Tok.lit "<td".toList, Tok.star nonGt, Tok.lit "align=\"right\">".toList,
    Tok.capPlus isDigitChar, Tok.lit "</td>".toList ]

/-- Transliteration of `Size ([^,]+),`. -/
def sizePat : List Tok :=
  [ Tok.lit "Size ".toList, Tok.capPlus nonComma, Tok.lit ",".toList ]

/-- `TPBProvider._parse_tpb_row`: extract name, magnet, seeders/leechers and
size from one table-row fragment and assemble a `TorrentResult`; rows
without a name or magnet produce `none`.  (The `base_url` parameter of the
source is unused there and omitted.) -/
def parseTpbRow (row : List Char) : Option TorrentResult :=
  match reSearch detLinkPat row with
  | none => none
  | some rawName =>
    let name := pyStrip rawName
    match reSearch magnetHrefPat row with
    | none => none
    | some magnet =>
      let nums := reFindAll tdNumPat row
      let seeders := match nums with
        | n :: _ => digitsToNat n
        | [] => 0
      let leechers := match nums with
        | _ :: n :: _ => digitsToNat n
        | _ => 0
      let size := match reSearch sizePat row with
        | some sz => pyStrip sz
        | none => "Unknown".toList
      some
        { name := name ++ " [TPB]".toList
          magnet := magnet
          size := size
          seeders := seeders
          leechers := leechers
          source := "TPB".toList
          hash := TorrentProvider.extract_hash magnet
          quality := TorrentProvider.extract_quality name
          category := "Mixed".toList }

/-- A concrete TPB result-table row whose magnet link carries a
32-character hex info-hash. -/
def tpbRowC : List Char :=
  ("<a class=\"detLink\" title=\"Details for Example.Item.1080p\">n</a>" ++
   "<a href=\"magnet:?xt=urn:btih:aaaaaaaaaaaaaaaaaaaaaaaaaaaaaaaa&dn=x\">m</a>" ++
   "<td align=\"right\">7</td><td align=\"right\">3</td>Size 1.2 GiB,").toList

/-- The `TorrentResult` that `_parse_tpb_row` produces from `tpbRowC`. -/
def tpbRowParsed : TorrentResult :=
  { name := "Example.Item.1080p [TPB]".toList
    magnet := "magnet:?xt=urn:btih:aaaaaaaaaaaaaaaaaaaaaaaaaaaaaaaa&dn=x".toList
    size := "1.2 GiB".toList
    seeders := 7
    leechers := 3
    source := "TPB".toList
    hash := List.replicate 32 'a'
    quality := "1080p".toList
    category := "Mixed".toList }

/-- One torrent entry of the YTS JSON response, with `Option` fields for the
`.get(...)` defaults used by the source; an absent or empty `hash` is the
empty list. -/
structure YtsTorrent where
  hash : List Char
  quality : Option (List Char)
  size : Option (List Char)
  seeds : Option Nat
  peers : Option Nat

/-- One movie entry of the YTS JSON response. -/
structure YtsMovie where
  title : List Char
  year : Nat
  torrents : List YtsTorrent

/-- Characters kept unencoded by `urllib.parse.quote` with the default
`safe='/'`: ASCII alphanumerics, `_.-~` and `/`. -/
def quoteKeep (c : Char) : Bool :=
  c.isAlphanum || c == '_' || c == '.' || c == '-' || c == '~' || c == '/'

/-- UTF-8 bytes of a code point. -/
def utf8Bytes (n : Nat) : List Nat :=
  if n < 128 then [n]
  else if n < 2048 then [192 + n / 64, 128 + n % 64]
  else if n < 65536 then [224 + n / 4096, 128 + n / 64 % 64, 128 + n % 64]
  else [240 + n / 262144, 128 + n / 4096 % 64, 128 + n / 64 % 64, 128 + n % 64]

/-- Uppercase hex digit, as used by `urllib.parse.quote`. -/
def hexUpperDigit (n : Nat) : Char :=
  if n < 10 then Char.ofNat (48 + n) else Char.ofNat (55 + n)

/-- Percent-encoding of one byte, uppercase hex, as `urllib.parse.quote`. -/
def percentByte (b : Nat) : List Char :=
  ['%', hexUpperDigit (b / 16 % 16), hexUpperDigit (b % 16)]

/-- Model of `urllib.parse.quote` with its default `safe` set. -/
def pyQuote (s : List Char) : List Char :=
  (s.map (fun c =>
    if quoteKeep c then [c]
    else ((utf8Bytes c.toNat).map percentByte).flatten)).flatten

/-- The fixed tracker list of `YTSProvider._build_yts_magnet`. -/
def ytsTrackers : List (List Char) :=
  [ "udp://tracker.openbittorrent.com:80".toList,
    "udp://open.demonii.com:1337".toList,
    "udp://tracker.coppersurfer.tk:6969".toList,
    "udp://exodus.desync.com:6969".toList ]

/-- `YTSProvider._build_yts_magnet`: hash plus url-encoded display name,
then the four fixed trackers in order. -/
def build_yts_magnet (h title : List Char) : List Char :=
  ytsTrackers.foldl
    (fun acc tr => acc ++ "&tr=".toList ++ pyQuote tr)
    ("magnet:?xt=urn:btih:".toList ++ h ++ "&dn=".toList ++ pyQuote title)

/-- Construction of one `TorrentResult` from a YTS movie/torrent pair, with
the `.get` defaults of the source: the API-supplied hash, size, quality,
seeds and peers are copied verbatim. -/
def ytsTorrentToResult (m : YtsMovie) (t : YtsTorrent) : TorrentResult :=
  { name := m.title ++ " (".toList ++ natToDec m.year ++ ") ".toList ++
      t.quality.getD [] ++ " [YTS]".toList
    magnet := build_yts_magnet t.hash m.title
    size := t.size.getD "Unknown".toList
    seeders := t.seeds.getD 0
    leechers := t.peers.getD 0
    source := "YTS".toList
    hash := t.hash
    quality := t.quality.getD "Unknown".toList
    category := "Movies".toList }

/-- The result-building loop of `YTSProvider.search`: the first 10 movies,
one result per torrent that carries a non-empty hash. -/
def ytsBuildResults (movies : List YtsMovie) : List TorrentResult :=
  ((movies.take 10).map (fun m =>
    (m.torrents.filter (fun t => !t.hash.isEmpty)).map (ytsTorrentToResult m))).flatten

/-- Outcome of one provider `search` call as seen by the aggregator:
a result list, or a raised `TorrentProviderError`. -/
inductive POutcome where
  | ok : List TorrentResult → POutcome
  | err : POutcome
deriving DecidableEq

/-- The query record `SearchQuery` (torrent_search.py). -/
structure SearchQuery where
  title : List Char
  year : List Char := []
  mediaType : MediaType := MediaType.movie
  season : Option Nat := none
  episode : Option Nat := none
  qualityFilter : Option (List Char) := none

/-- `YTSProvider.search`: non-movie queries are declined with an empty list
before any network activity; otherwise the HTTP GET and JSON decoding are
abstracted as `api` (`none` models a raised exception, which the source
rewraps as `TorrentProviderError`); responses whose status is not "ok" or
whose movie list is empty give an empty list. -/
def ytsSearch (q : SearchQuery)
    (api : Unit → Option (List Char × List YtsMovie)) : POutcome :=
  if q.mediaType ≠ MediaType.movie then POutcome.ok []
  else
    match api () with
    | none => POutcome.err
    | some (status, movies) =>
      if status = "ok".toList ∧ ¬ movies.isEmpty then POutcome.ok (ytsBuildResults movies)
      else POutcome.ok []

/-- The per-media-type provider try-order of `TorrentSearcher`. -/
def provider_priority : MediaType → List (List Char)
  | MediaType.movie => ["yts".toList, "tpb".toList]
  | MediaType.tv => ["tpb".toList]

/-- The provider loop of `TorrentSearcher.search_torrents`: run each provider
in order, collect results, swallow `TorrentProviderError`, and stop after a
non-empty YTS result on a movie query.  Returns the list of providers that
were invoked and the concatenated results. -/
def runProvidersGo (mt : MediaType) (run : List Char → POutcome) :
    List (List Char) → List (List Char) × List TorrentResult
  | [] => ([], [])
  | name :: rest =>
    match run name with
    | POutcome.err =>
      let r := runProvidersGo mt run rest
      (name :: r.1, r.2)
    | POutcome.ok rs =>
      if mt = MediaType.movie ∧ name = "yts".toList ∧ rs ≠ [] then
        ([name], rs)
      else
        let r := runProvidersGo mt run rest
        (name :: r.1, rs ++ r.2)

/-- Ranking key of the final sort: `(health_score, seeders)`. -/
def resKey (r : TorrentResult) : Nat × Nat :=
  (r.health_score, r.seeders)

/-- Lexicographic order on Python pairs of ints. -/
def lexLe (a b : Nat × Nat) : Bool :=
  decide (a.1 < b.1) || (decide (a.1 = b.1) && decide (a.2 ≤ b.2))

/-- Comparison used by the final sort: `a` may precede `b` exactly when its
key is lexicographically at least `b`'s (Python stable sort with
`key=(health_score, seeders), reverse=True`). -/
def resLe (a b : TorrentResult) : Bool :=
  lexLe (resKey b) (resKey a)

/-- The ranking stage of `TorrentSearcher.search_torrents`: stable descending
sort by `(health_score, seeders)`, truncated to `maxResults`
(`MAX_TORRENT_RESULTS`, default 20). -/
def rankResults (maxResults : Nat) (rs : List TorrentResult) : List TorrentResult :=
  (rs.mergeSort resLe).take maxResults

/-- `TorrentSearcher.search_torrents` for a given provider behaviour `run`:
provider loop, then ranking.  (The final per-result dict conversion is a
field-for-field copy that preserves order and is omitted.) -/
def search_torrents (mt : MediaType) (run : List Char → POutcome)
    (maxResults : Nat) : List (List Char) × List TorrentResult :=
  let r := runProvidersGo mt run (provider_priority mt)
  (r.1, rankResults maxResults r.2)

/-- Outcome of the daemon's `GET {base}/torrents` existence-check call:
a status code with the parsed per-entry `hash` strings (an entry without a
`hash` key contributes the empty string, matching `torrent.get('hash','')`),
or a raised `requests.RequestException`. -/
inductive ListResp where
  | resp : Nat → List (List Char) → ListResp
  | exn : ListResp

/-- Outcome of the daemon's `POST {base}/torrents` registration call:
a status code with the response body, a timeout, a connection error, or any
other exception carrying its message. -/
inductive PostResp where
  | resp : Nat → List Char → PostResp
  | timeout : PostResp
  | connError : PostResp
  | otherExn : List Char → PostResp

/-- The tagged outcome dictionaries returned by `TorrentManager`:
`{"success": True, stream_url, hash, message}` or
`{"success": False, error}`. -/
inductive PlaybackResult where
  | ok : (streamUrl hash message : List Char) → PlaybackResult
  | fail : (error : List Char) → PlaybackResult
deriving DecidableEq

/-- The stream-URL formula `f"{base_url}{stream_path}?link={hash}&index=1&play"`. -/
def streamUrl (base streamPath h : List Char) : List Char :=
  base ++ streamPath ++ "?link=".toList ++ h ++ "&index=1&play".toList

namespace TorrentManager

/-- `TorrentManager._check_existing_torrent`: on a 200 list response, the
first entry whose stored hash equals the target case-insensitively yields
the success outcome; every other situation (non-200, exception, no match)
yields `none`, and the caller proceeds to registration. -/
def check_existing_torrent (base streamPath h : List Char) (r : ListResp) :
    Option PlaybackResult :=
  match r with
  | ListResp.exn => none
  | ListResp.resp code entries =>
    if code ≠ 200 then none
    else
      match entries.find? (fun e => pyLower e == pyLower h) with
      | some _ =>
        some (PlaybackResult.ok (streamUrl base streamPath h) h
          "Torrent already exists, stream is ready".toList)
      | none => none

/-- `TorrentManager._add_new_torrent`: one tagged outcome per response
shape. -/
def add_new_torrent (base streamPath : List Char) (_magnet h : List Char)
    (r : PostResp) : PlaybackResult :=
  match r with
  | PostResp.resp code body =>
    if code = 200 then
      PlaybackResult.ok (streamUrl base streamPath h) h
        "Torrent successfully added".toList
    else
      PlaybackResult.fail
        ("TorrServer error (".toList ++ natToDec code ++ "): ".toList ++ body)
  | PostResp.timeout => PlaybackResult.fail "TorrServer timeout - try again".toList
  | PostResp.connError =>
    PlaybackResult.fail ("Cannot connect to TorrServer (".toList ++ base ++ ")".toList)
  | PostResp.otherExn msg =>
    PlaybackResult.fail ("Unexpected error: ".toList ++ msg)

/-- `TorrentManager.add_torrent`: validate the magnet prefix, extract the
hash, check for an existing torrent, otherwise register.  The two `Bool`
components record whether the existence-check GET and the registration POST
were issued. -/
def add_torrent (base streamPath magnet : List Char)
    (listResp : ListResp) (postResp : PostResp) :
    PlaybackResult × Bool × Bool :=
  if "magnet:".toList.isPrefixOf magnet = false then
    (PlaybackResult.fail "Invalid magnet link".toList, false, false)
  else
    match extract_hash magnet with
    | none =>
      (PlaybackResult.fail "Cannot extract hash from magnet link".toList, false, false)
    | some h =>
      if h.isEmpty then
        (PlaybackResult.fail "Cannot extract hash from magnet link".toList, false, false)
      else
        match check_existing_torrent base streamPath h listResp with
        | some r => (r, true, false)
        | none => (add_new_torrent base streamPath magnet h postResp, true, true)

end TorrentManager

/-- C7: `health_score` is 0 when seeders is 0, 100 when seeders is at least
50, and `min 100 (seeders * 2)` otherwise; in particular 25 scores 50 and
200 scores 100; and the score is a function of the current `seeders` field
alone, recomputed on every read. -/
theorem claim7_health_score :
    (∀ r : TorrentResult, r.seeders = 0 → r.health_score = 0)
    ∧ (∀ r : TorrentResult, 50 ≤ r.seeders → r.health_score = 100)
    ∧ (∀ r : TorrentResult, r.seeders ≠ 0 → r.seeders < 50 →
        r.health_score = min 100 (r.seeders * 2))
    ∧ (∀ r : TorrentResult, r.seeders = 25 → r.health_score = 50)
    ∧ (∀ r : TorrentResult, r.seeders = 200 → r.health_score = 100)
    ∧ (∀ r r' : TorrentResult, r.seeders = r'.seeders →
        r.health_score = r'.health_score) := by
  refine ⟨?_, ?_, ?_, ?_, ?_, ?_⟩
  · intro r h
    simp [TorrentResult.health_score, h]
  · intro r h
    simp only [TorrentResult.health_score]
    rw [if_neg (by omega), if_pos (by omega)]
  · intro r h1 h2
    simp only [TorrentResult.health_score]
    rw [if_neg (by omega), if_neg (by omega)]
  · intro r h
    simp [TorrentResult.health_score, h]
  · intro r h
    simp [TorrentResult.health_score, h]
  · intro r r' h
    simp only [TorrentResult.health_score, h]

/-- Witness for C7 at concrete seeder counts. -/
theorem claim7_health_score_witness :
    ({ name := [], magnet := [], size := [], seeders := 25, leechers := 3,
       source := [] : TorrentResult }).health_score = 50 :=
  claim7_health_score.2.2.2.1 _ rfl

/-- C6: `_add_new_torrent` returns exactly one tagged outcome per response
shape: success with the stream-URL formula on 200, a failure carrying the
daemon status code and body otherwise, and dedicated failure messages for
timeout, connection error and any other exception. -/
theorem claim6_registration_outcomes :
    ∀ base sp magnet h,
    (∀ body, TorrentManager.add_new_torrent base sp magnet h (PostResp.resp 200 body) =
      PlaybackResult.ok (streamUrl base sp h) h "Torrent successfully added".toList)
    ∧ (∀ code body, code ≠ 200 →
        TorrentManager.add_new_torrent base sp magnet h (PostResp.resp code body) =
        PlaybackResult.fail
          ("TorrServer error (".toList ++ natToDec code ++ "): ".toList ++ body))
    ∧ TorrentManager.add_new_torrent base sp magnet h PostResp.timeout =
        PlaybackResult.fail "TorrServer timeout - try again".toList
    ∧ TorrentManager.add_new_torrent base sp magnet h PostResp.connError =
        PlaybackResult.fail
          ("Cannot connect to TorrServer (".toList ++ base ++ ")".toList)
    ∧ (∀ msg, TorrentManager.add_new_torrent base sp magnet h (PostResp.otherExn msg) =
        PlaybackResult.fail ("Unexpected error: ".toList ++ msg))
    ∧ (∀ pr, (∃ u hh m, TorrentManager.add_new_torrent base sp magnet h pr =
          PlaybackResult.ok u hh m)
        ∨ (∃ e, TorrentManager.add_new_torrent base sp magnet h pr =
          PlaybackResult.fail e)) := by
  intro base sp magnet h
  refine ⟨?_, ?_, rfl, rfl, ?_, ?_⟩
  · intro body
    simp [TorrentManager.add_new_torrent]
  · intro code body hcode
    simp [TorrentManager.add_new_torrent, hcode]
  · intro msg
    rfl
  · intro pr
    cases pr with
    | resp code body =>
      by_cases hc : code = 200
      · subst hc
        exact Or.inl ⟨streamUrl base sp h, h, "Torrent successfully added".toList,
          by simp [TorrentManager.add_new_torrent]⟩
      · exact Or.inr ⟨"TorrServer error (".toList ++ natToDec code ++ "): ".toList ++ body,
          by simp [TorrentManager.add_new_torrent, hc]⟩
    | timeout => exact Or.inr ⟨_, rfl⟩
    | connError => exact Or.inr ⟨_, rfl⟩
    | otherExn msg => exact Or.inr ⟨_, rfl⟩

/-- Witness for C6: a daemon 500 response carries the code and body. -/
theorem claim6_registration_outcomes_witness :
    TorrentManager.add_new_torrent "http://h".toList "/stream".toList
      "magnet:?x".toList "h".toList (PostResp.resp 500 "oops".toList) =
    PlaybackResult.fail
      ("TorrServer error (".toList ++ natToDec 500 ++ "): ".toList ++ "oops".toList) :=
  (claim6_registration_outcomes _ _ _ _).2.1 500 "oops".toList (by decide)

/-- C5: when the daemon's 200 torrent list contains an entry matching the
target hash case-insensitively, the check short-circuits to the success
outcome with the stream-URL formula; any failure of the check (non-200,
exception) yields `none`; and inside `add_torrent` a successful check
returns without a POST while a `none` check proceeds to registration. -/
theorem claim5_existing_short_circuit :
    (∀ base sp h entries,
      entries.any (fun e => pyLower e == pyLower h) = true →
      TorrentManager.check_existing_torrent base sp h (ListResp.resp 200 entries) =
        some (PlaybackResult.ok (streamUrl base sp h) h
          "Torrent already exists, stream is ready".toList))
    ∧ (∀ base sp h code entries, code ≠ 200 →
        TorrentManager.check_existing_torrent base sp h (ListResp.resp code entries) = none)
    ∧ (∀ base sp h, TorrentManager.check_existing_torrent base sp h ListResp.exn = none)
    ∧ (∀ base sp magnet h listResp postResp,
        "magnet:".toList.isPrefixOf magnet = true →
        TorrentManager.extract_hash magnet = some h →
        h.isEmpty = false →
        TorrentManager.check_existing_torrent base sp h listResp =
          some (PlaybackResult.ok (streamUrl base sp h) h
            "Torrent already exists, stream is ready".toList) →
        TorrentManager.add_torrent base sp magnet listResp postResp =
          (PlaybackResult.ok (streamUrl base sp h) h
            "Torrent already exists, stream is ready".toList, true, false))
    ∧ (∀ base sp magnet h listResp postResp,
        "magnet:".toList.isPrefixOf magnet = true →
        TorrentManager.extract_hash magnet = some h →
        h.isEmpty = false →
        TorrentManager.check_existing_torrent base sp h listResp = none →
        TorrentManager.add_torrent base sp magnet listResp postResp =
          (TorrentManager.add_new_torrent base sp magnet h postResp, true, true)) := by
  refine ⟨?_, ?_, ?_, ?_, ?_⟩
  · intro base sp h entries hany
    have hsome : (entries.find? (fun e => pyLower e == pyLower h)).isSome := by
      rw [List.find?_isSome]
      simpa using List.any_eq_true.mp hany
    simp only [TorrentManager.check_existing_torrent]
    rw [if_neg (by omega)]
    cases hf : entries.find? (fun e => pyLower e == pyLower h) with
    | none => rw [hf] at hsome; simp at hsome
    | some x => simp [hf]
  · intro base sp h code entries hcode
    simp [TorrentManager.check_existing_torrent, hcode]
  · intro base sp h
    rfl
  · intro base sp magnet h listResp postResp hpre hext hne hcheck
    simp at hpre
    simp [TorrentManager.add_torrent, hpre, hext, hne, hcheck]
  · intro base sp magnet h listResp postResp hpre hext hne hcheck
    simp at hpre
    simp [TorrentManager.add_torrent, hpre, hext, hne, hcheck]

/-- Witness for C5: a list containing the target hash in upper case
short-circuits to success without a POST. -/
theorem claim5_existing_short_circuit_witness :
    TorrentManager.add_torrent "http://h".toList "/stream".toList
      ("magnet:?xt=urn:btih:".toList ++ List.replicate 40 'a')
      (ListResp.resp 200 [List.replicate 40 'A']) PostResp.timeout =
      (PlaybackResult.ok
        (streamUrl "http://h".toList "/stream".toList (List.replicate 40 'a'))
        (List.replicate 40 'a')
        "Torrent already exists, stream is ready".toList, true, false) :=
  claim5_existing_short_circuit.2.2.2.1 _ _ _ _ _ _ (by decide) (by decide) (by decide)
    (claim5_existing_short_circuit.1 _ _ _ _ (by decide))

/-- C8: a magnet that does not start with `magnet:` or from which no hash
can be extracted fails immediately, with neither the existence-check GET nor
the registration POST issued. -/
theorem claim8_invalid_magnet_no_network :
    ∀ base sp magnet listResp postResp,
    ("magnet:".toList.isPrefixOf magnet = false ∨
      TorrentManager.extract_hash magnet = none) →
    (TorrentManager.add_torrent base sp magnet listResp postResp).2 = (false, false)
    ∧ ∃ e, (TorrentManager.add_torrent base sp magnet listResp postResp).1 =
        PlaybackResult.fail e := by
  intro base sp magnet listResp postResp hbad
  cases hbad with
  | inl hpre =>
    simp at hpre
    refine ⟨?_, "Invalid magnet link".toList, ?_⟩ <;>
      simp [TorrentManager.add_torrent, hpre]
  | inr hext =>
    cases hpre : "magnet:".toList.isPrefixOf magnet with
    | false =>
      simp at hpre
      refine ⟨?_, "Invalid magnet link".toList, ?_⟩ <;>
        simp [TorrentManager.add_torrent, hpre]
    | true =>
      refine ⟨?_, "Cannot extract hash from magnet link".toList, ?_⟩ <;>
        (unfold TorrentManager.add_torrent; rw [hpre, hext]; rfl)

/-- Witness for C8: a non-magnet input and a magnet without a hash both fail
with no network flags set. -/
theorem claim8_invalid_magnet_no_network_witness :
    (TorrentManager.add_torrent "http://h".toList "/stream".toList
      "http://example.com".toList ListResp.exn PostResp.timeout).2 = (false, false)
    ∧ ∃ e, (TorrentManager.add_torrent "http://h".toList "/stream".toList
        "http://example.com".toList ListResp.exn PostResp.timeout).1 =
        PlaybackResult.fail e :=
  claim8_invalid_magnet_no_network _ _ _ _ _ (Or.inl (by decide))

/-- C3: on a movie query a non-empty YTS result short-circuits the loop so
TPB is never invoked; an empty or failed YTS search is followed by TPB; a TV
query invokes only TPB; and `YTSProvider.search` declines any non-movie
query with an empty list regardless of the network. -/
theorem claim3_provider_order :
    (∀ run rs, run "yts".toList = POutcome.ok rs → rs ≠ [] →
      runProvidersGo MediaType.movie run (provider_priority MediaType.movie) =
        (["yts".toList], rs))
    ∧ (∀ run, run "yts".toList = POutcome.ok [] →
      (runProvidersGo MediaType.movie run (provider_priority MediaType.movie)).1 =
        ["yts".toList, "tpb".toList])
    ∧ (∀ run, run "yts".toList = POutcome.err →
      (runProvidersGo MediaType.movie run (provider_priority MediaType.movie)).1 =
        ["yts".toList, "tpb".toList])
    ∧ (∀ run, (runProvidersGo MediaType.tv run (provider_priority MediaType.tv)).1 =
        ["tpb".toList])
    ∧ (∀ (q : SearchQuery) api, q.mediaType ≠ MediaType.movie →
        ytsSearch q api = POutcome.ok []) := by
  refine ⟨?_, ?_, ?_, ?_, ?_⟩
  · intro run rs hrun hne
    simp at hrun
    simp [provider_priority, runProvidersGo, hrun, hne]
  · intro run hrun
    simp at hrun
    cases h : run "tpb".toList with
    | err =>
      simp at h
      simp [provider_priority, runProvidersGo, hrun, h]
    | ok rs2 =>
      simp at h
      simp [provider_priority, runProvidersGo, hrun, h]
  · intro run hrun
    simp at hrun
    cases h : run "tpb".toList with
    | err =>
      simp at h
      simp [provider_priority, runProvidersGo, hrun, h]
    | ok rs2 =>
      simp at h
      simp [provider_priority, runProvidersGo, hrun, h]
  · intro run
    cases h : run "tpb".toList with
    | err =>
      simp at h
      simp [provider_priority, runProvidersGo, h]
    | ok rs2 =>
      simp at h
      simp [provider_priority, runProvidersGo, h]
  · intro q api hq
    simp [ytsSearch, hq]

/-- Witness for C3: with YTS producing one result the invoked-provider list
is exactly YTS; with YTS empty it is YTS then TPB. -/
theorem claim3_provider_order_witness :
    runProvidersGo MediaType.movie
      (fun n => if n = "yts".toList then
          POutcome.ok [TorrentResult.mk "n".toList [] [] 1 0 "YTS".toList [] "Unknown".toList [] []]
        else POutcome.ok [])
      (provider_priority MediaType.movie) =
      (["yts".toList],
        [TorrentResult.mk "n".toList [] [] 1 0 "YTS".toList [] "Unknown".toList [] []])
    ∧ (runProvidersGo MediaType.movie (fun _ => POutcome.ok [])
        (provider_priority MediaType.movie)).1 = ["yts".toList, "tpb".toList] :=
  ⟨claim3_provider_order.1 _ _ (by simp) (by simp),
   claim3_provider_order.2.1 _ rfl⟩

/-- C1: the base32 branch of `_convert_hash_format` is unreachable.  The
32-character string of letter `A` is a valid base32 info-hash (it decodes,
unpadded, to 20 zero bytes), yet extraction returns the 32-character
hex-roundtrip string of `a` rather than the 40-character hex encoding of
those bytes, because the code pads an already-aligned base32 string with 8
`=` characters, which `b32decode` rejects as incorrect padding. -/
theorem claim1_base32_branch_unreachable :
    b32decode (List.replicate 32 'A') = some (List.replicate 20 0)
    ∧ b32decode (List.replicate 32 'A' ++ List.replicate 8 '=') = none
    ∧ TorrentManager.extract_hash
        ("magnet:?xt=urn:btih:".toList ++ List.replicate 32 'A') =
      some (List.replicate 32 'a')
    ∧ (List.replicate 32 'a').length = 32 :=
  ⟨by decide, by decide, by decide, by decide⟩

/-- Bridge between the executable `isPrefixOf` and an explicit append
decomposition. -/
theorem isPrefixOf_iff_exists (n h : List Char) :
    n.isPrefixOf h = true ↔ ∃ post, h = n ++ post := by
  constructor
  · intro hp
    simp at hp
    obtain ⟨t, ht⟩ := hp
    exact ⟨t, ht.symm⟩
  · rintro ⟨post, rfl⟩
    simp

/-- Bridge between the executable substring test and `SubstrOf`. -/
theorem containsSub_iff (hay needle : List Char) :
    containsSub hay needle = true ↔ SubstrOf needle hay := by
  induction hay with
  | nil =>
    cases needle with
    | nil =>
      simp only [containsSub, List.isEmpty_nil, SubstrOf, true_iff]
      exact ⟨[], [], rfl⟩
    | cons a as =>
      simp only [containsSub, List.isEmpty_cons, Bool.false_eq_true, false_iff, SubstrOf]
      rintro ⟨pre, post, hcontra⟩
      simp at hcontra
  | cons c t ih =>
    constructor
    · intro hc
      rcases Bool.or_eq_true_iff.mp hc with h1 | h2
      · obtain ⟨post, hp⟩ := (isPrefixOf_iff_exists _ _).mp h1
        exact ⟨[], post, by simpa using hp⟩
      · obtain ⟨pre, post, hp⟩ := ih.mp h2
        exact ⟨c :: pre, post, by simp [hp]⟩
    · rintro ⟨pre, post, hp⟩
      cases pre with
      | nil =>
        apply Bool.or_eq_true_iff.mpr
        exact Or.inl ((isPrefixOf_iff_exists _ _).mpr ⟨post, by simpa using hp⟩)
      | cons x xs =>
        apply Bool.or_eq_true_iff.mpr
        refine Or.inr (ih.mpr ⟨xs, post, ?_⟩)
        simpa using congrArg List.tail hp

/-- First-match behaviour of the pattern-table iteration. -/
theorem firstQuality_eq_of (nl : List Char) :
    ∀ (pre : List (List Char × List Char)) L p q post, L = pre ++ (p, q) :: post →
    containsSub nl p = true →
    (∀ pq ∈ pre, containsSub nl pq.1 = false) →
    TorrentProvider.firstQuality L nl = q := by
  intro pre
  induction pre with
  | nil =>
    intro L p q post hL hc _
    subst hL
    simp [TorrentProvider.firstQuality, hc]
  | cons x xs ih =>
    intro L p q post hL hc hpre
    subst hL
    have hx : containsSub nl x.1 = false := hpre x (by simp)
    cases x with
    | mk xp xq =>
      simp only [List.cons_append, TorrentProvider.firstQuality]
      rw [hx]
      simp only [Bool.false_eq_true, if_false]
      exact ih _ p q post rfl hc (fun pq hm => hpre pq (by simp [hm]))

/-- No-match behaviour of the pattern-table iteration. -/
theorem firstQuality_unknown (nl : List Char) :
    ∀ L, (∀ pq ∈ L, containsSub nl pq.1 = false) →
    TorrentProvider.firstQuality L nl = "Unknown".toList := by
  intro L
  induction L with
  | nil => intro _; rfl
  | cons x xs ih =>
    intro hall
    cases x with
    | mk xp xq =>
      have hx : containsSub nl xp = false := hall (xp, xq) (by simp)
      simp only [TorrentProvider.firstQuality]
      rw [hx]
      simp only [Bool.false_eq_true, if_false]
      exact ih (fun pq hm => hall pq (by simp [hm]))

/-- C9: quality extraction returns the quality of the first pattern of the
fixed table that occurs case-insensitively in the name, `Unknown` when none
does, and in particular `Movie.Title.1080p.BluRay` yields `1080p`, not
`BluRay`. -/
theorem claim9_quality_first_match :
    (∀ name pre p q post,
      TorrentProvider.quality_map = pre ++ (p, q) :: post →
      SubstrOf p (pyLower name) →
      (∀ pq ∈ pre, ¬ SubstrOf pq.1 (pyLower name)) →
      TorrentProvider.extract_quality name = q)
    ∧ (∀ name,
      (∀ pq ∈ TorrentProvider.quality_map, ¬ SubstrOf pq.1 (pyLower name)) →
      TorrentProvider.extract_quality name = "Unknown".toList)
    ∧ TorrentProvider.extract_quality "Movie.Title.1080p.BluRay".toList =
        "1080p".toList := by
  refine ⟨?_, ?_, by decide⟩
  · intro name pre p q post hL hsub hpre
    refine firstQuality_eq_of (pyLower name) pre _ p q post hL
      ((containsSub_iff _ _).mpr hsub) ?_
    intro pq hm
    have := hpre pq hm
    cases hc : containsSub (pyLower name) pq.1 with
    | false => rfl
    | true => exact absurd ((containsSub_iff _ _).mp hc) this
  · intro name hall
    refine firstQuality_unknown (pyLower name) _ ?_
    intro pq hm
    have := hall pq hm
    cases hc : containsSub (pyLower name) pq.1 with
    | false => rfl
    | true => exact absurd ((containsSub_iff _ _).mp hc) this

/-- Witness for C9: the first table entry wins on a name containing
`2160p`. -/
theorem claim9_quality_first_match_witness :
    TorrentProvider.extract_quality "x2160p".toList = "4K".toList :=
  claim9_quality_first_match.1 "x2160p".toList []
    "2160p".toList "4K".toList (TorrentProvider.quality_map.tail)
    (by decide) ⟨"x".toList, [], by decide⟩ (by simp)

/-- A match at the current position makes the scan succeed there. -/
theorem searchWith_of_some {f : List Char → Option α} {s : List Char} {r : α}
    (h : f s = some r) : searchWith f s = some r := by
  cases s with
  | nil => simpa [searchWith] using h
  | cons c rest => simp [searchWith, h]

/-- A 32-character all-hex string is captured by the hash alternation via
its second branch. -/
theorem matchHashAt_of_32 {h : List Char} (hl : h.length = 32)
    (hx : h.all isHexChar = true) : matchHashAt h = some h := by
  have ht40 : h.take 40 = h := List.take_of_length_le (by omega)
  have ht32 : h.take 32 = h := List.take_of_length_le (by omega)
  simp only [matchHashAt, ht40, ht32, hl, hx]
  norm_num

/-- C10: `validate_magnet_link` accepts exactly the strings that begin with
the literal `magnet:?xt=urn:btih:` followed by 40 hex characters, so every
magnet whose hash group has only 32 hex characters is rejected by it even
though `MAGNET_RE`-based extraction accepts the 32-character form. -/
theorem claim10_validate_extract_disagree :
    (∀ s, validate_magnet_link s = true ↔
      ∃ h rest, s = "magnet:?xt=urn:btih:".toList ++ h ++ rest ∧
        h.length = 40 ∧ h.all isHexChar = true)
    ∧ (∀ h : List Char, h.length = 32 → h.all isHexChar = true →
      validate_magnet_link ("magnet:?xt=urn:btih:".toList ++ h) = false
      ∧ TorrentManager.extract_hash ("magnet:?xt=urn:btih:".toList ++ h) =
          some (TorrentManager.convert_hash_format h)) := by
  have hplen : ("magnet:?xt=urn:btih:".toList : List Char).length = 20 := by decide
  constructor
  · intro s
    constructor
    · intro hv
      have h1 := (Bool.and_eq_true_iff.mp hv).1
      have h2 := (Bool.and_eq_true_iff.mp hv).2
      have h3 := (Bool.and_eq_true_iff.mp h2).1
      have h4 := (Bool.and_eq_true_iff.mp h2).2
      obtain ⟨post, hs⟩ := (isPrefixOf_iff_exists _ _).mp h1
      subst hs
      rw [List.drop_left' hplen] at h3 h4
      refine ⟨post.take 40, post.drop 40, ?_, ?_, h4⟩
      · rw [List.append_assoc, List.take_append_drop]
      · simpa using h3
    · rintro ⟨h, rest, rfl, hlen, hx⟩
      have hpre : ("magnet:?xt=urn:btih:".toList : List Char).isPrefixOf
          ("magnet:?xt=urn:btih:".toList ++ (h ++ rest)) = true :=
        (isPrefixOf_iff_exists _ _).mpr ⟨h ++ rest, by simp⟩
      simp only [validate_magnet_link, List.append_assoc] at hpre ⊢
      rw [hpre, List.drop_left' hplen, List.take_left' hlen, hlen, hx]
      rfl
  · intro h hlen hx
    constructor
    · simp only [validate_magnet_link]
      rw [List.drop_left' hplen]
      have : (h.take 40).length = 32 := by
        rw [List.take_of_length_le (by omega)]
        exact hlen
      cases hb : ("magnet:?xt=urn:btih:".toList : List Char).isPrefixOf
          ("magnet:?xt=urn:btih:".toList ++ h) with
      | false => simp [hb]
      | true =>
        simp only [hb, Bool.true_and]
        apply Bool.and_eq_false_iff.mpr
        · left
          rw [this]
          decide
    · have hsearch : magnetReSearch ("magnet:?xt=urn:btih:".toList ++ h) = some h := by
        apply searchWith_of_some
        simp only [magnetReAt]
        rw [if_pos ((isPrefixOf_iff_exists _ _).mpr ⟨h, rfl⟩)]
        rw [List.drop_left' hplen]
        exact matchHashAt_of_32 hlen hx
      simp only [TorrentManager.extract_hash, hsearch, hlen]
      rfl

/-- Witness for C10: the all-`a` 32-character hash is accepted by extraction
but rejected by validation. -/
theorem claim10_validate_extract_disagree_witness :
    validate_magnet_link ("magnet:?xt=urn:btih:".toList ++ List.replicate 32 'a') = false
    ∧ TorrentManager.extract_hash
        ("magnet:?xt=urn:btih:".toList ++ List.replicate 32 'a') =
      some (TorrentManager.convert_hash_format (List.replicate 32 'a')) :=
  claim10_validate_extract_disagree.2 (List.replicate 32 'a') (by decide) (by decide)

/-- A successful scan comes from a successful anchored attempt at some
position. -/
theorem searchWith_some {f : List Char → Option α} :
    ∀ {s : List Char} {r : α}, searchWith f s = some r → ∃ t, f t = some r := by
  intro s
  induction s with
  | nil =>
    intro r h
    exact ⟨[], h⟩
  | cons c rest ih =>
    intro r h
    simp only [searchWith] at h
    cases hf : f (c :: rest) with
    | some x =>
      rw [hf] at h
      simp at h
      subst h
      exact ⟨c :: rest, hf⟩
    | none =>
      rw [hf] at h
      exact ih h

/-- Every capture of the hash alternation is a 40- or 32-character hex
run. -/
theorem matchHashAt_shape {s r : List Char} (h : matchHashAt s = some r) :
    (r.length = 40 ∧ r.all isHexChar = true)
    ∨ (r.length = 32 ∧ r.all isHexChar = true) := by
  simp only [matchHashAt] at h
  split at h
  · rename_i hc
    cases h
    exact Or.inl ⟨hc.1, hc.2⟩
  · split at h
    · rename_i hc
      cases h
      exact Or.inr ⟨hc.1, hc.2⟩
    · cases h

/-- Counterexample to C2: the TPB row `tpbRowC` is parsed into a result
whose info-hash has 32 characters — neither 40 characters nor empty. -/
theorem claim2_hash_width_counterexample :
    (parseTpbRow tpbRowC).map TorrentResult.hash = some (List.replicate 32 'a')
    ∧ ¬ ((List.replicate 32 'a' : List Char).length = 40)
    ∧ (List.replicate 32 'a' : List Char) ≠ [] :=
  ⟨by decide, by decide, by decide⟩

/-- C2 amended: a provider-stored hash is the empty string, a 40-character
hex run, or a 32-character hex run.  The TPB parser stores exactly
`TorrentProvider._extract_hash` of the row's magnet, and the YTS builder
copies the API-supplied (non-empty) hash verbatim, with no shape
guarantee beyond what the API returns. -/
theorem claim2_hash_width_amended :
    (∀ magnet, TorrentProvider.extract_hash magnet = []
      ∨ ((TorrentProvider.extract_hash magnet).length = 40
          ∧ (TorrentProvider.extract_hash magnet).all isHexChar = true)
      ∨ ((TorrentProvider.extract_hash magnet).length = 32
          ∧ (TorrentProvider.extract_hash magnet).all isHexChar = true))
    ∧ (∀ row r, parseTpbRow row = some r →
        r.hash = TorrentProvider.extract_hash r.magnet)
    ∧ (∀ movies r, r ∈ ytsBuildResults movies →
        ∃ m t, m ∈ movies ∧ t ∈ m.torrents ∧ t.hash ≠ [] ∧ r.hash = t.hash) := by
  refine ⟨?_, ?_, ?_⟩
  · intro magnet
    unfold TorrentProvider.extract_hash
    cases hs : searchWith
        (fun s => if "urn:btih:".toList.isPrefixOf s then matchHashAt (s.drop 9)
          else none) magnet with
    | none => simp
    | some r =>
      obtain ⟨t, ht⟩ := searchWith_some hs
      simp only [Option.getD_some]
      split at ht
      · rcases matchHashAt_shape ht with ⟨h1, h2⟩ | ⟨h1, h2⟩
        · exact Or.inr (Or.inl ⟨h1, h2⟩)
        · exact Or.inr (Or.inr ⟨h1, h2⟩)
      · cases ht
  · intro row r h
    simp only [parseTpbRow] at h
    cases h1 : reSearch detLinkPat row with
    | none =>
      rw [h1] at h
      cases h
    | some rawName =>
      rw [h1] at h
      cases h2 : reSearch magnetHrefPat row with
      | none =>
        rw [h2] at h
        cases h
      | some magnet =>
        rw [h2] at h
        cases h
        rfl
  · intro movies r hr
    simp only [ytsBuildResults] at hr
    rw [List.mem_flatten] at hr
    obtain ⟨inner, hin, hrin⟩ := hr
    rw [List.mem_map] at hin
    obtain ⟨m, hm, rfl⟩ := hin
    rw [List.mem_map] at hrin
    obtain ⟨t, ht, rfl⟩ := hrin
    rw [List.mem_filter] at ht
    refine ⟨m, t, List.mem_of_mem_take hm, ht.1, ?_, rfl⟩
    have := ht.2
    simpa using this

set_option maxRecDepth 4000 in
/-- Witness for C2 amended: the TPB row parse stores exactly the
provider-extracted hash of its magnet. -/
theorem claim2_hash_width_amended_witness :
    tpbRowParsed.hash = TorrentProvider.extract_hash tpbRowParsed.magnet :=
  claim2_hash_width_amended.2.1 tpbRowC tpbRowParsed (by decide)

/-- The descending key comparison is transitive. -/
theorem resLe_trans : ∀ a b c : TorrentResult,
    resLe a b = true → resLe b c = true → resLe a c = true := by
  intro a b c
  simp only [resLe, lexLe, resKey]
  intro h1 h2
  simp at h1 h2 ⊢
  omega

/-- The descending key comparison is total. -/
theorem resLe_total : ∀ a b : TorrentResult,
    (resLe a b || resLe b a) = true := by
  intro a b
  simp only [resLe, lexLe, resKey]
  simp
  omega

/-- Equal-key results compare `true` in both directions. -/
theorem resLe_of_key_eq {a b : TorrentResult} (h : resKey a = resKey b) :
    resLe a b = true := by
  simp only [resLe, lexLe, h]
  simp

/-- Stability of the ranking sort: for every key, the equal-key subsequence
of the sorted list is exactly the equal-key subsequence of the input. -/
theorem mergeSort_filter_key_eq (rs : List TorrentResult) (k : Nat × Nat) :
    (rs.mergeSort resLe).filter (fun r => resKey r == k) =
      rs.filter (fun r => resKey r == k) := by
  set p : TorrentResult → Bool := fun r => resKey r == k with hp
  have hall : ∀ x ∈ rs.filter p, resKey x = k := by
    intro x hx
    rw [List.mem_filter] at hx
    simpa [hp] using hx.2
  have hpw : (rs.filter p).Pairwise (fun a b => resLe a b = true) := by
    apply List.pairwise_of_forall_mem_list
    intro a ha b hb
    exact resLe_of_key_eq ((hall a ha).trans (hall b hb).symm)
  have hsub : List.Sublist (rs.filter p) (rs.mergeSort resLe) :=
    List.sublist_mergeSort resLe_trans resLe_total hpw (List.filter_sublist rs)
  have hself : (rs.filter p).filter p = rs.filter p :=
    List.filter_eq_self.mpr (fun a ha => by
      rw [List.mem_filter] at ha
      exact ha.2)
  have hsub2 : List.Sublist (rs.filter p) ((rs.mergeSort resLe).filter p) := by
    rw [← hself]
    exact hsub.filter p
  have hperm : List.Perm ((rs.mergeSort resLe).filter p) (rs.filter p) :=
    (List.mergeSort_perm rs resLe).filter p
  exact (hsub2.eq_of_length hperm.length_eq.symm).symm

/-- C4: the aggregator output is sorted descending by the
`(health_score, seeders)` key, equal-key results keep their input order
(their subsequences agree before truncation and stay in input order after
it), and the output never exceeds the configured maximum (default 20). -/
theorem claim4_ranking :
    ∀ (maxResults : Nat) (rs : List TorrentResult),
    (rankResults maxResults rs).Pairwise (fun a b => resLe a b = true)
    ∧ (∀ k : Nat × Nat,
        (rs.mergeSort resLe).filter (fun r => resKey r == k) =
          rs.filter (fun r => resKey r == k))
    ∧ (∀ k : Nat × Nat,
        ((rankResults maxResults rs).filter (fun r => resKey r == k)).Sublist
          (rs.filter (fun r => resKey r == k)))
    ∧ (rankResults maxResults rs).length ≤ maxResults := by
  intro maxResults rs
  refine ⟨?_, mergeSort_filter_key_eq rs, ?_, ?_⟩
  · exact ((List.sorted_mergeSort resLe_trans resLe_total rs).sublist
      (List.take_sublist _ _))
  · intro k
    rw [← mergeSort_filter_key_eq rs k]
    exact (List.take_sublist _ _).filter _
  · exact List.length_take_le _ _
